import Mathlib

/-!
# cpp-go-benchmarks: a shallow embedding of the three benchmark programs

* `cpp_benchmark.cpp`: `testCopy`, `testMove`, `testReturnValue`
* `template_vs_runtime_benchmark.cpp`: `process_array_template`, `process_array_runtime`,
  `process_array_unrolled`, `benchmark`, and the percentages computed in `main`
* `vector_layout_benchmark.cpp`: `prevent_optimize`, `benchmark_2d_vector`,
  `benchmark_flat_vector`, and the per-run and averaged figures computed in `main`

Conventions of the embedding.

* `double` is `Dbl`: a rational number, or one of the IEEE-754 special values `+inf`, `-inf`,
  `NaN`.  Rounding is not modelled (finite arithmetic is exact) and there is one zero, the
  positive one.  Division by zero follows IEEE-754 with traps masked, the C++ default: it yields
  an infinity or `NaN` and the program goes on.
* `int` is `Int`; the loop counters `int i` stay below their bound, so they never overflow.
  The elements of a `std::vector<int>` are `Int` values wrapped to 32 bits by `wrap32`.
* `size_t` is `Nat`.  An index `i` of a loop never exceeds `data.size()`, and
  `data.size() <= max_size() < 2^62`, so `i + UnrollFactor` cannot wrap around.
* `uint32_t` is `Nat` with an explicit `% 2 ^ 32`.
* Clock readings and measured times are inputs of the embedding.
-/

namespace CppGoBenchmarks

/-! ## Errors and results -/

/-- The two error kinds named by the specification of the timing harness. -/
inductive BenchError where
  | InvalidArgument
  | DivideByZero
  deriving DecidableEq, Repr

/-- Ways in which running a piece of the programs can fail to produce a value: an access
outside a vector (undefined behaviour in C++), or a loop that is still running when the
fuel of the embedding is used up. -/
inductive ExecError where
  | outOfBounds
  | outOfFuel
  deriving DecidableEq, Repr

/-! ## `double` -/

/-- A `double`: a finite value, `+inf`, `-inf` or `NaN`. -/
inductive Dbl where
  | fin (q : ℚ)
  | posInf
  | negInf
  | nan
  deriving DecidableEq

namespace Dbl

/-- The infinity with the sign of `q`, and `NaN` when `q = 0`. -/
def signedInf (q : ℚ) : Dbl :=
  if 0 < q then posInf else if q < 0 then negInf else nan

/-- Unary minus. -/
def neg : Dbl → Dbl
  | fin q => fin (-q)
  | posInf => negInf
  | negInf => posInf
  | nan => nan

/-- IEEE-754 addition (`inf + -inf = NaN`). -/
def add : Dbl → Dbl → Dbl
  | fin a, fin b => fin (a + b)
  | nan, _ => nan
  | _, nan => nan
  | posInf, negInf => nan
  | negInf, posInf => nan
  | posInf, _ => posInf
  | negInf, _ => negInf
  | _, posInf => posInf
  | _, negInf => negInf

/-- IEEE-754 subtraction. -/
def sub (a b : Dbl) : Dbl := add a (neg b)

/-- IEEE-754 multiplication (`inf * 0 = NaN`). -/
def mul : Dbl → Dbl → Dbl
  | fin a, fin b => fin (a * b)
  | nan, _ => nan
  | _, nan => nan
  | posInf, fin b => signedInf b
  | negInf, fin b => signedInf (-b)
  | fin a, posInf => signedInf a
  | fin a, negInf => signedInf (-a)
  | posInf, posInf => posInf
  | negInf, negInf => posInf
  | posInf, negInf => negInf
  | negInf, posInf => negInf

/-- IEEE-754 division with traps masked: a finite non-zero value divided by zero is an
infinity, `0 / 0` and `inf / inf` are `NaN`, and no error is raised. -/
def div : Dbl → Dbl → Dbl
  | fin a, fin b => if b = 0 then signedInf a else fin (a / b)
  | nan, _ => nan
  | _, nan => nan
  | fin _, posInf => fin 0
  | fin _, negInf => fin 0
  | posInf, fin b => if 0 ≤ b then posInf else negInf
  | negInf, fin b => if 0 ≤ b then negInf else posInf
  | posInf, posInf => nan
  | posInf, negInf => nan
  | negInf, posInf => nan
  | negInf, negInf => nan

instance : Add Dbl := ⟨add⟩
instance : Sub Dbl := ⟨sub⟩
instance : Mul Dbl := ⟨mul⟩
instance : Div Dbl := ⟨div⟩
instance (n : Nat) : OfNat Dbl n := ⟨fin n⟩

end Dbl

/-! ## Counting loops -/

/-- The loop `for (int i = i0; i < n; i++) body` on a state of type `σ`, from the counter
value `i`.  The counter is not visible to the bodies of the loops modelled with it. -/
def intLoop {σ : Type} (n : Int) (body : σ → σ) (i : Int) (s : σ) : σ :=
  if i < n then intLoop n body (i + 1) (body s) else s
termination_by (n - i).toNat
decreasing_by omega

/-! ## `cpp_benchmark.cpp` -/

/-- How often each constructor of `LargeObject` has run. -/
structure Counters where
  defaultCtor : Nat
  copyCtor : Nat
  moveCtor : Nat
  deriving DecidableEq, Repr

/-- What a test function prints: one line with the elapsed time in seconds.  `ops` records
the constructor calls made inside the timed loop. -/
structure TimedRun where
  label : String
  elapsed : Dbl
  ops : Counters
  deriving DecidableEq

/-- The function `createLargeObject`: it default-constructs `obj` and returns it; the return
runs the move constructor unless the compiler elides it (`nrvo`). -/
def createLargeObject (nrvo : Bool) (c : Counters) : Counters :=
  let c := { c with defaultCtor := c.defaultCtor + 1 }
  if nrvo then c else { c with moveCtor := c.moveCtor + 1 }

/-- The body of the loop of `testCopy`: `LargeObject source; LargeObject dest = source;`. -/
def testCopy.body (c : Counters) : Counters :=
  let c := { c with defaultCtor := c.defaultCtor + 1 }
  { c with copyCtor := c.copyCtor + 1 }

/-- The function `testCopy` (lines 41-52); `start` and `stop` are the two clock readings. -/
def testCopy (iterations : Int) (start stop : ℚ) : Except BenchError TimedRun :=
  let ops := intLoop iterations testCopy.body 0 ⟨0, 0, 0⟩
  let elapsed := Dbl.fin stop - Dbl.fin start
  .ok { label := "Copy time", elapsed := elapsed, ops := ops }

/-- The body of the loop of `testMove`:
`LargeObject source; LargeObject dest = std::move(source);`. -/
def testMove.body (c : Counters) : Counters :=
  let c := { c with defaultCtor := c.defaultCtor + 1 }
  { c with moveCtor := c.moveCtor + 1 }

/-- The function `testMove` (lines 55-66). -/
def testMove (iterations : Int) (start stop : ℚ) : Except BenchError TimedRun :=
  let ops := intLoop iterations testMove.body 0 ⟨0, 0, 0⟩
  let elapsed := Dbl.fin stop - Dbl.fin start
  .ok { label := "Move time", elapsed := elapsed, ops := ops }

/-- The body of the loop of `testReturnValue`: `LargeObject obj = createLargeObject();`. -/
def testReturnValue.body (nrvo : Bool) (c : Counters) : Counters :=
  createLargeObject nrvo c

/-- The function `testReturnValue` (lines 69-79). -/
def testReturnValue (nrvo : Bool) (iterations : Int) (start stop : ℚ) :
    Except BenchError TimedRun :=
  let ops := intLoop iterations (testReturnValue.body nrvo) 0 ⟨0, 0, 0⟩
  let elapsed := Dbl.fin stop - Dbl.fin start
  .ok { label := "Return value (with move) time", elapsed := elapsed, ops := ops }

/-! ## `template_vs_runtime_benchmark.cpp`: the array functions -/

/-- The value of an `int` expression, wrapped to 32 bits in two's complement. -/
def wrap32 (x : Int) : Int := (x + 2147483648) % 4294967296 - 2147483648

/-- The body of the loop of `process_array_template<DoCheck>` at an index `i` below
`data.size()` (lines 11-23). -/
def process_array_template.body (DoCheck : Bool) (data : List Int) (i : Nat)
    (h : i < data.length) : List Int :=
  if DoCheck then
    if h2 : i < data.length then data.set i (wrap32 (data[i] * 2)) else data
  else
    data.set i (wrap32 (data[i] * 2))

/-- The loop `for (size_t i = 0; i < data.size(); ++i)` of `process_array_template`, from
the index `i`. -/
def process_array_template.loop (DoCheck : Bool) (data : List Int) (i : Nat) : List Int :=
  if h : i < data.length then
    process_array_template.loop DoCheck (process_array_template.body DoCheck data i h) (i + 1)
  else data
termination_by data.length - i
decreasing_by
  have hlen : (process_array_template.body DoCheck data i h).length = data.length := by
    unfold process_array_template.body
    split <;> simp
  omega

/-- The function template `process_array_template<DoCheck>` (lines 6-25). -/
def process_array_template (DoCheck : Bool) (data : List Int) : List Int :=
  process_array_template.loop DoCheck data 0

/-- The body of the loop of `process_array_runtime` at an index `i` below `data.size()`
(lines 32-44). -/
def process_array_runtime.body (data : List Int) (doCheck : Bool) (i : Nat)
    (h : i < data.length) : List Int :=
  if doCheck then
    if h2 : i < data.length then data.set i (wrap32 (data[i] * 2)) else data
  else
    data.set i (wrap32 (data[i] * 2))

/-- The loop `for (size_t i = 0; i < data.size(); ++i)` of `process_array_runtime`, from the
index `i`. -/
def process_array_runtime.loop (data : List Int) (doCheck : Bool) (i : Nat) : List Int :=
  if h : i < data.length then
    process_array_runtime.loop (process_array_runtime.body data doCheck i h) doCheck (i + 1)
  else data
termination_by data.length - i
decreasing_by
  have hlen : (process_array_runtime.body data doCheck i h).length = data.length := by
    unfold process_array_runtime.body
    split <;> simp
  omega

/-- The function `process_array_runtime` (lines 28-46). -/
def process_array_runtime (data : List Int) (doCheck : Bool) : List Int :=
  process_array_runtime.loop data doCheck 0

/-- What `data[i] *= 2` stores in place of the value `v`: twice `v`, wrapped to 32 bits. -/
def dbl (v : Int) : Int := wrap32 (v * 2)

/-- The vector `orig` with its first `i` elements doubled and the others untouched. -/
def doubledUpTo (orig : List Int) (i : Nat) : List Int :=
  (orig.take i).map dbl ++ orig.drop i

/-- The statement `data[i] *= 2;` where `i` is not known to be below `data.size()`: an
access outside the vector is an error. -/
def mulAssign2 (data : List Int) (i : Nat) : Except ExecError (List Int) :=
  match data[i]? with
  | none => .error .outOfBounds
  | some v => .ok (data.set i (wrap32 (v * 2)))

/-- The first loop of `process_array_unrolled<UnrollFactor>` (lines 56-67),
`for (; i + UnrollFactor <= size; i += UnrollFactor)`, from the index `i`; it returns the
vector and the index reached.  Each pass of the loop uses one unit of fuel. -/
def process_array_unrolled.chunks (UnrollFactor : Nat) (size : Nat) :
    Nat → List Int → Nat → Except ExecError (List Int × Nat)
  | 0, _, _ => .error .outOfFuel
  | fuel + 1, data, i =>
    if i + UnrollFactor ≤ size then do
      let data ← if UnrollFactor ≥ 1 then mulAssign2 data i else pure data
      let data ← if UnrollFactor ≥ 2 then mulAssign2 data (i + 1) else pure data
      let data ← if UnrollFactor ≥ 3 then mulAssign2 data (i + 2) else pure data
      let data ← if UnrollFactor ≥ 4 then mulAssign2 data (i + 3) else pure data
      process_array_unrolled.chunks UnrollFactor size fuel data (i + UnrollFactor)
    else pure (data, i)

/-- The second loop of `process_array_unrolled` (lines 70-73), `for (; i < size; ++i)`,
from the index `i`.  Each pass of the loop uses one unit of fuel. -/
def process_array_unrolled.rest (size : Nat) :
    Nat → List Int → Nat → Except ExecError (List Int)
  | 0, _, _ => .error .outOfFuel
  | fuel + 1, data, i =>
    if i < size then do
      let data ← mulAssign2 data i
      process_array_unrolled.rest size fuel data (i + 1)
    else pure data

/-- The function template `process_array_unrolled<UnrollFactor>` (lines 49-74), for a
positive or zero `UnrollFactor`; each of its two loops may use `fuel` passes. -/
def process_array_unrolled (UnrollFactor : Nat) (fuel : Nat) (data : List Int) :
    Except ExecError (List Int) := do
  let size := data.length
  let (data, i) ← process_array_unrolled.chunks UnrollFactor size fuel data 0
  process_array_unrolled.rest size fuel data i

/-! ## `template_vs_runtime_benchmark.cpp`: `benchmark` -/

/-- The seven times measured by `main`, in milliseconds. -/
structure TemplateTimes where
  template_true_time : Dbl
  template_false_time : Dbl
  runtime_true_time : Dbl
  runtime_false_time : Dbl
  unroll1_time : Dbl
  unroll2_time : Dbl
  unroll4_time : Dbl

/-- The four percentages `main` computes and prints. -/
structure TemplateReport where
  template_true_vs_runtime_true : Dbl
  template_false_vs_runtime_false : Dbl
  unroll2_vs_unroll1 : Dbl
  unroll4_vs_unroll1 : Dbl
  deriving DecidableEq

/-- Lines 121-126 of `main`: the four "percentage improvement" expressions.  `main` has no
check of a divisor, no `throw` and no early exit: it always reaches `return 0`. -/
def template_main (t : TemplateTimes) : Except BenchError TemplateReport :=
  let template_true_vs_runtime_true :=
    ((t.runtime_true_time - t.template_true_time) / t.runtime_true_time) * 100
  let template_false_vs_runtime_false :=
    ((t.runtime_false_time - t.template_false_time) / t.runtime_false_time) * 100
  let unroll2_vs_unroll1 := ((t.unroll1_time - t.unroll2_time) / t.unroll1_time) * 100
  let unroll4_vs_unroll1 := ((t.unroll1_time - t.unroll4_time) / t.unroll1_time) * 100
  .ok { template_true_vs_runtime_true := template_true_vs_runtime_true
        template_false_vs_runtime_false := template_false_vs_runtime_false
        unroll2_vs_unroll1 := unroll2_vs_unroll1
        unroll4_vs_unroll1 := unroll4_vs_unroll1 }

/-! ## `vector_layout_benchmark.cpp`: the two timed loops -/

/-- The constant `WIDTH`: `const size_t WIDTH = 1000;`. -/
def WIDTH : Nat := 1000

/-- The constant `DEPTH`: `const size_t DEPTH = 1000;`. -/
def DEPTH : Nat := 1000

/-- The constant `NUM_ITERATIONS`: `const size_t NUM_ITERATIONS = 10000000;`. -/
def NUM_ITERATIONS : Nat := 10000000

/-- The state of a timed loop over a storage of type `M`: the storage, what has been written
to `std::cout`, and the arguments of the calls of `prevent_optimize` so far, in order. -/
structure LoopState (M : Type) where
  storage : M
  out : List Nat
  calls : List Nat

/-- The function `prevent_optimize` (lines 12-18): it prints `val` when `val == 0xDEADBEEF`.
The call is recorded in `calls`. -/
def prevent_optimize {M : Type} (val : Nat) (s : LoopState M) : LoopState M :=
  { s with out := if val = 0xDEADBEEF then s.out ++ [val] else s.out
           calls := s.calls ++ [val] }

/-- After `iter` passes of a timed loop: nothing has been printed, `prevent_optimize` has been
called `iter` times, and never with `0xDEADBEEF`. -/
def QuietUpTo {M : Type} (s : LoopState M) (iter : Nat) : Prop :=
  s.out = [] ∧ s.calls.length = iter ∧ ∀ val ∈ s.calls, val ≠ 0xDEADBEEF

/-- The body of the loop of `benchmark_2d_vector` (lines 29-32) at the iteration `iter`. -/
def benchmark_2d_vector.body (s : LoopState (List (List Nat))) (iter : Nat) :
    Except ExecError (LoopState (List (List Nat))) :=
  let i := iter % WIDTH
  let j := iter % DEPTH
  -- matrix2d[i][j]++;
  match s.storage[i]? with
  | none => .error .outOfBounds
  | some row =>
    match row[j]? with
    | none => .error .outOfBounds
    | some v =>
      let matrix2d := s.storage.set i (row.set j ((v + 1) % 2 ^ 32))
      -- prevent_optimize(matrix2d[i][j]);
      match matrix2d[i]? with
      | none => .error .outOfBounds
      | some row =>
        match row[j]? with
        | none => .error .outOfBounds
        | some val => .ok (prevent_optimize val { s with storage := matrix2d })

/-- The loop `for (size_t iter = 0; iter < NUM_ITERATIONS; iter++)` of `benchmark_2d_vector`,
from the iteration `iter`. -/
def benchmark_2d_vector.loop (s : LoopState (List (List Nat))) (iter : Nat) :
    Except ExecError (LoopState (List (List Nat))) :=
  if iter < NUM_ITERATIONS then
    match benchmark_2d_vector.body s iter with
    | .error e => .error e
    | .ok s => benchmark_2d_vector.loop s (iter + 1)
  else .ok s
termination_by NUM_ITERATIONS - iter

/-- The function `benchmark_2d_vector` (lines 20-38); `duration` is the number of
microseconds between the two clock readings.  The result is the returned time in
milliseconds and the final state of the loop; an error of the loop is passed on. -/
def benchmark_2d_vector (duration : Int) :
    Except ExecError (Dbl × LoopState (List (List Nat))) :=
  let matrix2d := List.replicate WIDTH (List.replicate DEPTH 0)
  (benchmark_2d_vector.loop { storage := matrix2d, out := [], calls := [] } 0).map
    (fun s => (Dbl.fin duration / Dbl.fin 1000, s))

/-- The body of the loop of `benchmark_flat_vector` (lines 49-52) at the iteration `iter`. -/
def benchmark_flat_vector.body (s : LoopState (List Nat)) (iter : Nat) :
    Except ExecError (LoopState (List Nat)) :=
  let i := iter % WIDTH
  let j := iter % DEPTH
  -- matrix1d[i * DEPTH + j]++;
  match s.storage[i * DEPTH + j]? with
  | none => .error .outOfBounds
  | some v =>
    let matrix1d := s.storage.set (i * DEPTH + j) ((v + 1) % 2 ^ 32)
    -- prevent_optimize(matrix1d[i * DEPTH + j]);
    match matrix1d[i * DEPTH + j]? with
    | none => .error .outOfBounds
    | some val => .ok (prevent_optimize val { s with storage := matrix1d })

/-- The loop `for (size_t iter = 0; iter < NUM_ITERATIONS; iter++)` of
`benchmark_flat_vector`, from the iteration `iter`. -/
def benchmark_flat_vector.loop (s : LoopState (List Nat)) (iter : Nat) :
    Except ExecError (LoopState (List Nat)) :=
  if iter < NUM_ITERATIONS then
    match benchmark_flat_vector.body s iter with
    | .error e => .error e
    | .ok s => benchmark_flat_vector.loop s (iter + 1)
  else .ok s
termination_by NUM_ITERATIONS - iter

/-- The function `benchmark_flat_vector` (lines 40-58); `duration` is the number of
microseconds between the two clock readings. -/
def benchmark_flat_vector (duration : Int) : Except ExecError (Dbl × LoopState (List Nat)) :=
  let matrix1d := List.replicate (WIDTH * DEPTH) 0
  (benchmark_flat_vector.loop { storage := matrix1d, out := [], calls := [] } 0).map
    (fun s => (Dbl.fin duration / Dbl.fin 1000, s))

/-! ## `vector_layout_benchmark.cpp`: the figures of `main` -/

/-- The constant `NUM_RUNS` of `main`: `const int NUM_RUNS = 5;`. -/
def NUM_RUNS : Int := 5

/-- What `main` prints for one run. -/
structure RunLine where
  time_2d : Dbl
  time_flat : Dbl
  percent_faster : Dbl
  deriving DecidableEq

/-- The state of the loop of `main`: the two running totals and the lines printed so far. -/
structure LayoutAcc where
  total_2d : Dbl
  total_flat : Dbl
  lines : List RunLine

/-- What `main` prints: one block per run, then the averages. -/
structure LayoutReport where
  runs : List RunLine
  avg_2d : Dbl
  avg_flat : Dbl
  avg_percent_faster : Dbl
  deriving DecidableEq

/-- The body of the loop of `main` (lines 72-82), for the run with counter `i`;
`measure_2d i` and `measure_flat i` are the values returned by that run's calls of
`benchmark_2d_vector()` and `benchmark_flat_vector()`. -/
def layout_main.body (measure_2d measure_flat : Int → Dbl) (i : Int) (acc : LayoutAcc) :
    LayoutAcc :=
  let time_2d := measure_2d i
  let time_flat := measure_flat i
  let percent_faster := ((time_2d - time_flat) / time_2d) * 100
  { total_2d := acc.total_2d + time_2d
    total_flat := acc.total_flat + time_flat
    lines := acc.lines ++ [{ time_2d := time_2d, time_flat := time_flat,
                             percent_faster := percent_faster }] }

/-- The loop `for (int i = 0; i < NUM_RUNS; i++)` of `main`, from counter value `i`. -/
def layout_main.loop (measure_2d measure_flat : Int → Dbl) (i : Int) (acc : LayoutAcc) :
    LayoutAcc :=
  if i < NUM_RUNS then
    layout_main.loop measure_2d measure_flat (i + 1)
      (layout_main.body measure_2d measure_flat i acc)
  else acc
termination_by (NUM_RUNS - i).toNat
decreasing_by omega

/-- The function `main` of `vector_layout_benchmark.cpp` (lines 66-95). -/
def layout_main (measure_2d measure_flat : Int → Dbl) : Except BenchError LayoutReport :=
  let acc := layout_main.loop measure_2d measure_flat 0
    { total_2d := 0, total_flat := 0, lines := [] }
  let avg_2d := acc.total_2d / Dbl.fin NUM_RUNS
  let avg_flat := acc.total_flat / Dbl.fin NUM_RUNS
  let avg_percent_faster := ((avg_2d - avg_flat) / avg_2d) * 100
  .ok { runs := acc.lines, avg_2d := avg_2d, avg_flat := avg_flat,
        avg_percent_faster := avg_percent_faster }

/-- The times of successive runs given as a list (runs beyond the list read as `0`). -/
def listRun (ts : List ℚ) (i : Int) : ℚ := ts.getD i.toNat 0

/-- The measurements of successive runs given as a list of finite times. -/
def measureOf (ts : List ℚ) (i : Int) : Dbl := Dbl.fin (listRun ts i)

/-- The times used to instantiate the comparisons of `template_vs_runtime_benchmark.cpp`:
baselines of 100 ms and candidates of 75 ms. -/
def sampleTimes : TemplateTimes :=
  { template_true_time := .fin 75, template_false_time := .fin 75
    runtime_true_time := .fin 100, runtime_false_time := .fin 100
    unroll1_time := .fin 100, unroll2_time := .fin 75, unroll4_time := .fin 75 }

/-! ## The comparison and the averaged summary of the specification -/

/-- The operation `compare` as the specification words it: the percent delta
`(baseline - candidate) / baseline * 100`, and a `DivideByZero` error when the baseline
elapsed time is zero. -/
def spec_compare (baseline candidate : ℚ) : Except BenchError ℚ :=
  if baseline = 0 then .error .DivideByZero
  else .ok ((baseline - candidate) / baseline * 100)

/-! ## Lemmas on `Dbl` -/

namespace Dbl

theorem ofNat_eq (n : Nat) : (OfNat.ofNat n : Dbl) = fin n := rfl

theorem fin_add (a b : ℚ) : fin a + fin b = fin (a + b) := rfl

theorem fin_sub (a b : ℚ) : fin a - fin b = fin (a - b) := by
  show add (fin a) (neg (fin b)) = fin (a - b)
  simp [add, neg, sub_eq_add_neg]

theorem fin_div (a b : ℚ) (hb : b ≠ 0) : fin a / fin b = fin (a / b) := by
  show div (fin a) (fin b) = fin (a / b)
  simp [div, hb]

theorem fin_div_zero (a : ℚ) : fin a / fin 0 = signedInf a := by
  show div (fin a) (fin 0) = signedInf a
  simp [div]

theorem signedInf_mul_hundred (a : ℚ) : signedInf a * fin 100 = signedInf a := by
  show mul (signedInf a) (fin 100) = signedInf a
  unfold signedInf
  split_ifs <;> simp [mul, signedInf]

/-- The percentage expression of the programs on a zero baseline. -/
theorem percent_zero (c : ℚ) :
    ((fin 0 - fin c) / fin 0) * (100 : Dbl) = signedInf (-c) := by
  rw [fin_sub, fin_div_zero, ofNat_eq]
  have h : ((100 : ℕ) : ℚ) = 100 := by norm_num
  rw [h, signedInf_mul_hundred]
  simp

end Dbl

/-- The loop of `main` runs its body for the counter values 0, 1, 2, 3, 4, in this order. -/
theorem layout_main_loop_zero (m2 mf : Int → Dbl) (acc : LayoutAcc) :
    layout_main.loop m2 mf 0 acc =
      layout_main.body m2 mf 4 (layout_main.body m2 mf 3 (layout_main.body m2 mf 2
        (layout_main.body m2 mf 1 (layout_main.body m2 mf 0 acc)))) := by
  rw [layout_main.loop, if_pos (by decide)]
  rw [layout_main.loop, if_pos (by decide)]
  rw [layout_main.loop, if_pos (by decide)]
  rw [layout_main.loop, if_pos (by decide)]
  rw [layout_main.loop, if_pos (by decide)]
  rw [layout_main.loop, if_neg (by decide)]
  norm_num

/-- The report of `main` on given measurements, with the loop unfolded. -/
theorem layout_main_eq (m2 mf : Int → Dbl) :
    layout_main m2 mf =
      .ok { runs := [0, 1, 2, 3, 4].map (fun i : Int =>
              { time_2d := m2 i, time_flat := mf i,
                percent_faster := ((m2 i - mf i) / m2 i) * 100 })
            avg_2d := (0 + m2 0 + m2 1 + m2 2 + m2 3 + m2 4) / Dbl.fin 5
            avg_flat := (0 + mf 0 + mf 1 + mf 2 + mf 3 + mf 4) / Dbl.fin 5
            avg_percent_faster :=
              (((0 + m2 0 + m2 1 + m2 2 + m2 3 + m2 4) / Dbl.fin 5
                - (0 + mf 0 + mf 1 + mf 2 + mf 3 + mf 4) / Dbl.fin 5)
                / ((0 + m2 0 + m2 1 + m2 2 + m2 3 + m2 4) / Dbl.fin 5)) * 100 } := by
  unfold layout_main
  rw [layout_main_loop_zero]
  simp [layout_main.body, NUM_RUNS]

/-- The two averages of `main` on finite measurements. -/
theorem layout_avg_fin (t : Int → ℚ) :
    ((0 : Dbl) + Dbl.fin (t 0) + Dbl.fin (t 1) + Dbl.fin (t 2) + Dbl.fin (t 3) + Dbl.fin (t 4))
        / Dbl.fin 5
      = Dbl.fin ((∑ k in Finset.range 5, t (k : Int)) / 5) := by
  rw [Dbl.ofNat_eq]
  simp only [Dbl.fin_add]
  rw [Dbl.fin_div _ _ (by norm_num)]
  simp [Finset.sum_range_succ]

/-- The averaged percentage of `main` is the percentage expression applied to the two
averages it prints. -/
theorem layout_avg_percent (m2 mf : Int → Dbl) (r : LayoutReport)
    (h : layout_main m2 mf = .ok r) :
    r.avg_percent_faster = ((r.avg_2d - r.avg_flat) / r.avg_2d) * 100 := by
  rw [layout_main_eq] at h
  cases h
  rfl

/-- The line printed for run `i` holds that run's two times and their percentage. -/
theorem layout_run_line (m2 mf : Int → Dbl) (i : Int) (hi0 : 0 ≤ i) (hi : i < NUM_RUNS) :
    ∃ r, layout_main m2 mf = .ok r ∧
      r.runs[i.toNat]? = some { time_2d := m2 i, time_flat := mf i,
                                percent_faster := ((m2 i - mf i) / m2 i) * 100 } := by
  refine ⟨_, layout_main_eq m2 mf, ?_⟩
  unfold NUM_RUNS at hi
  interval_cases i <;> simp

/-! ## C1: the percent delta -/

/-- C3, refuted: with a baseline `runtime_true_time` of exactly 0 and a candidate of 75 ms the
specification asks for a `DivideByZero` error, but `main` of
`template_vs_runtime_benchmark.cpp` returns normally and its percentage is `-inf`. -/
theorem zero_baseline_is_not_an_error :
    spec_compare 0 75 = .error .DivideByZero
    ∧ (template_main { sampleTimes with runtime_true_time := .fin 0 }).map
        (fun r => r.template_true_vs_runtime_true) = .ok .negInf
    ∧ ∀ e, template_main { sampleTimes with runtime_true_time := .fin 0 } ≠ .error e := by
  refine ⟨by simp [spec_compare], ?_, ?_⟩
  · have h := Dbl.percent_zero 75
    simp [template_main, Except.map, sampleTimes, h, Dbl.signedInf]
  · intro e h
    simp [template_main] at h

/-- C3, amended: with a baseline of exactly 0 and a candidate `c`, no comparison of the
programs fails.  Each of them returns normally with a value that is not a number of percent:
`-inf` when `c > 0`, `NaN` when `c = 0` and `+inf` when `c < 0` (that is
`Dbl.signedInf (-c)`).  This holds with `runtime_true_time`, `runtime_false_time`,
`unroll1_time` (twice), `time_2d` of a run `i`, and `avg_2d` as the baseline. -/
theorem zero_baseline_not_finite (c : ℚ) (t : TemplateTimes) (m2 mf : Int → Dbl) :
    (template_main { t with runtime_true_time := .fin 0, template_true_time := .fin c }).map
        (fun r => r.template_true_vs_runtime_true) = .ok (Dbl.signedInf (-c))
    ∧ (template_main { t with runtime_false_time := .fin 0, template_false_time := .fin c }).map
        (fun r => r.template_false_vs_runtime_false) = .ok (Dbl.signedInf (-c))
    ∧ (template_main { t with unroll1_time := .fin 0, unroll2_time := .fin c }).map
        (fun r => r.unroll2_vs_unroll1) = .ok (Dbl.signedInf (-c))
    ∧ (template_main { t with unroll1_time := .fin 0, unroll4_time := .fin c }).map
        (fun r => r.unroll4_vs_unroll1) = .ok (Dbl.signedInf (-c))
    ∧ (∀ i : Int, 0 ≤ i → i < NUM_RUNS → m2 i = .fin 0 → mf i = .fin c →
        ∃ r, layout_main m2 mf = .ok r ∧
          r.runs[i.toNat]? = some { time_2d := .fin 0, time_flat := .fin c,
                                    percent_faster := Dbl.signedInf (-c) })
    ∧ (∀ r, layout_main m2 mf = .ok r → r.avg_2d = .fin 0 → r.avg_flat = .fin c →
        r.avg_percent_faster = Dbl.signedInf (-c))
    ∧ Dbl.signedInf (-c) = (if 0 < c then .negInf else if c < 0 then .posInf else .nan) := by
  refine ⟨?_, ?_, ?_, ?_, ?_, ?_, ?_⟩
  · simp [template_main, Except.map, Dbl.percent_zero c]
  · simp [template_main, Except.map, Dbl.percent_zero c]
  · simp [template_main, Except.map, Dbl.percent_zero c]
  · simp [template_main, Except.map, Dbl.percent_zero c]
  · intro i hi0 hi h2 hf
    obtain ⟨r, hr, hline⟩ := layout_run_line m2 mf i hi0 hi
    refine ⟨r, hr, ?_⟩
    rw [hline, h2, hf, Dbl.percent_zero c]
  · intro r hr h2 hf
    rw [layout_avg_percent m2 mf r hr, h2, hf, Dbl.percent_zero c]
  · unfold Dbl.signedInf
    rcases lt_trichotomy c 0 with h | h | h
    · simp [h, not_lt.mpr (le_of_lt h)]
    · simp [h]
    · simp [h, not_lt.mpr (le_of_lt h)]

/-- The amended C3 at the candidate 75 ms, on five runs that each measure a baseline of 0 ms:
the comparison of run 2 and the averaged comparison both return normally with `-inf`. -/
theorem zero_baseline_not_finite_witness :
    ∃ r, layout_main (measureOf [0, 0, 0, 0, 0]) (measureOf [75, 75, 75, 75, 75]) = .ok r
      ∧ r.runs[2]? = some { time_2d := .fin 0, time_flat := .fin 75, percent_faster := .negInf }
      ∧ r.avg_2d = .fin 0 ∧ r.avg_flat = .fin 75 ∧ r.avg_percent_faster = .negInf := by
  have h := zero_baseline_not_finite 75 sampleTimes
    (measureOf [0, 0, 0, 0, 0]) (measureOf [75, 75, 75, 75, 75])
  have e : Dbl.signedInf (-75) = .negInf := by
    rw [h.2.2.2.2.2.2]; norm_num
  rw [e] at h
  have a2 : ((0 : Dbl) + measureOf [0, 0, 0, 0, 0] 0 + measureOf [0, 0, 0, 0, 0] 1
      + measureOf [0, 0, 0, 0, 0] 2 + measureOf [0, 0, 0, 0, 0] 3
      + measureOf [0, 0, 0, 0, 0] 4) / Dbl.fin 5 = .fin 0 := by
    simp only [measureOf]
    rw [layout_avg_fin]
    simp [listRun, Finset.sum_range_succ]
  have af : ((0 : Dbl) + measureOf [75, 75, 75, 75, 75] 0 + measureOf [75, 75, 75, 75, 75] 1
      + measureOf [75, 75, 75, 75, 75] 2 + measureOf [75, 75, 75, 75, 75] 3
      + measureOf [75, 75, 75, 75, 75] 4) / Dbl.fin 5 = .fin 75 := by
    simp only [measureOf]
    rw [layout_avg_fin]
    simp [listRun, Finset.sum_range_succ]
    norm_num
  obtain ⟨r, hr, hline⟩ := h.2.2.2.2.1 2 (by decide) (by decide)
    (by simp [measureOf, listRun]) (by simp [measureOf, listRun])
  have hr2 := hr
  rw [layout_main_eq] at hr2
  have hr3 : r.avg_2d = .fin 0 := by cases hr2; exact a2
  have hr4 : r.avg_flat = .fin 75 := by cases hr2; exact af
  exact ⟨r, hr, by simpa using hline, hr3, hr4, h.2.2.2.2.2.1 r hr hr3 hr4⟩

/-! ## C5: the averaged summary -/

/-- A counting loop from `i` applies its body `n - i` times in succession (no time when
`n <= i`). -/
theorem intLoop_eq_iterate {σ : Type} (n : Int) (body : σ → σ) (i : Int) (s : σ) :
    intLoop n body i s = body^[(n - i).toNat] s := by
  generalize hk : (n - i).toNat = k
  induction k generalizing i s with
  | zero =>
    rw [intLoop, if_neg (by omega)]
    rfl
  | succ k ih =>
    rw [intLoop, if_pos (by omega), ih (i + 1) (body s) (by omega)]
    rfl

/-- C4, refuted: called with `iterations = 0`, `testCopy`, `testMove` and `testReturnValue`
return normally: they run the body zero times and print the elapsed time between the two clock
readings (here 0 s and 100 ns); none of them returns an error. -/
theorem zero_iterations_is_not_an_error :
    testCopy 0 0 (1 / 10000000)
      = .ok { label := "Copy time", elapsed := .fin (1 / 10000000), ops := ⟨0, 0, 0⟩ }
    ∧ testMove 0 0 (1 / 10000000)
      = .ok { label := "Move time", elapsed := .fin (1 / 10000000), ops := ⟨0, 0, 0⟩ }
    ∧ testReturnValue true 0 0 (1 / 10000000)
      = .ok { label := "Return value (with move) time", elapsed := .fin (1 / 10000000),
              ops := ⟨0, 0, 0⟩ }
    ∧ testCopy 0 0 (1 / 10000000) ≠ .error .InvalidArgument
    ∧ testMove 0 0 (1 / 10000000) ≠ .error .InvalidArgument
    ∧ testReturnValue true 0 0 (1 / 10000000) ≠ .error .InvalidArgument := by
  refine ⟨?_, ?_, ?_, ?_, ?_, ?_⟩
  · simp [testCopy, intLoop_eq_iterate, Dbl.fin_sub]
  · simp [testMove, intLoop_eq_iterate, Dbl.fin_sub]
  · simp [testReturnValue, intLoop_eq_iterate, Dbl.fin_sub]
  · simp [testCopy]
  · simp [testMove]
  · simp [testReturnValue]

/-- C4, amended: for every `iterations < 1` (zero or negative), `testCopy`, `testMove` and
`testReturnValue` return normally without any error: the timed loop is empty, its body runs
zero times, and the one line they print reports the elapsed time `stop - start` between the
two clock readings. -/
theorem nonpositive_iterations_time_empty_loop (iterations : Int) (h : iterations < 1)
    (nrvo : Bool) (start stop : ℚ) :
    testCopy iterations start stop
      = .ok { label := "Copy time", elapsed := .fin (stop - start), ops := ⟨0, 0, 0⟩ }
    ∧ testMove iterations start stop
      = .ok { label := "Move time", elapsed := .fin (stop - start), ops := ⟨0, 0, 0⟩ }
    ∧ testReturnValue nrvo iterations start stop
      = .ok { label := "Return value (with move) time", elapsed := .fin (stop - start),
              ops := ⟨0, 0, 0⟩ } := by
  have hz : iterations.toNat = 0 := by omega
  refine ⟨?_, ?_, ?_⟩
  · simp [testCopy, intLoop_eq_iterate, Dbl.fin_sub, hz]
  · simp [testMove, intLoop_eq_iterate, Dbl.fin_sub, hz]
  · simp [testReturnValue, intLoop_eq_iterate, Dbl.fin_sub, hz]

/-- The amended C4 at `iterations = -2`, with clock readings 3 s and 5 s. -/
theorem nonpositive_iterations_time_empty_loop_witness :
    (-2 : Int) < 1
    ∧ testCopy (-2) 3 5 = .ok { label := "Copy time", elapsed := .fin 2, ops := ⟨0, 0, 0⟩ } := by
  have h := (nonpositive_iterations_time_empty_loop (-2) (by decide) true 3 5).1
  have e : (5 : ℚ) - 3 = 2 := by norm_num
  rw [e] at h
  exact ⟨by decide, h⟩

/-! ## C6 and C8: the array functions double every element -/

theorem doubledUpTo_zero (orig : List Int) : doubledUpTo orig 0 = orig := by
  simp [doubledUpTo]

theorem doubledUpTo_of_length_le (orig : List Int) (i : Nat) (h : orig.length ≤ i) :
    doubledUpTo orig i = orig.map dbl := by
  simp [doubledUpTo, List.take_of_length_le h, List.drop_eq_nil_of_le h]

theorem doubledUpTo_length (orig : List Int) (i : Nat) :
    (doubledUpTo orig i).length = orig.length := by
  simp [doubledUpTo]
  omega

theorem doubledUpTo_cons_succ (a : Int) (l : List Int) (i : Nat) :
    doubledUpTo (a :: l) (i + 1) = dbl a :: doubledUpTo l i := by
  simp [doubledUpTo]

/-- Doubling in place the element at index `i` moves the state from `i` to `i + 1`. -/
theorem mulAssign2_doubledUpTo (orig : List Int) (i : Nat) (h : i < orig.length) :
    mulAssign2 (doubledUpTo orig i) i = .ok (doubledUpTo orig (i + 1)) := by
  induction orig generalizing i with
  | nil => simp at h
  | cons a l ih =>
    cases i with
    | zero => simp [mulAssign2, doubledUpTo, dbl]
    | succ j =>
      have hj : j < l.length := by simpa using h
      have ih2 := ih j hj
      rw [doubledUpTo_cons_succ, doubledUpTo_cons_succ]
      unfold mulAssign2 at ih2 ⊢
      rw [List.getElem?_cons_succ]
      cases hv : (doubledUpTo l j)[j]? with
      | none => rw [hv] at ih2; simp at ih2
      | some v =>
        rw [hv] at ih2
        simp only [Except.ok.injEq] at ih2
        simp [List.set_cons_succ, ih2]

/-- The unchecked form of `data[i] *= 2`, at an index known to be in range. -/
theorem set_of_mulAssign2 (data res : List Int) (i : Nat) (h : i < data.length)
    (hm : mulAssign2 data i = .ok res) : data.set i (wrap32 (data[i] * 2)) = res := by
  unfold mulAssign2 at hm
  rw [List.getElem?_eq_getElem h] at hm
  simpa using hm

theorem dbl_mod (v : Int) :
    dbl v % 4294967296 = (2 * v) % 4294967296
      ∧ -2147483648 ≤ dbl v ∧ dbl v < 2147483648 := by
  unfold dbl wrap32
  omega

theorem process_array_template_body_doubledUpTo (DoCheck : Bool) (orig : List Int) (i : Nat)
    (h : i < (doubledUpTo orig i).length) :
    process_array_template.body DoCheck (doubledUpTo orig i) i h = doubledUpTo orig (i + 1) := by
  have hi : i < orig.length := by rwa [doubledUpTo_length] at h
  have hs := set_of_mulAssign2 _ _ i h (mulAssign2_doubledUpTo orig i hi)
  unfold process_array_template.body
  cases DoCheck <;> simp [h, hs]

theorem process_array_template_loop_doubledUpTo (DoCheck : Bool) (orig : List Int) (k i : Nat)
    (hk : orig.length - i = k) :
    process_array_template.loop DoCheck (doubledUpTo orig i) i = orig.map dbl := by
  induction k generalizing i with
  | zero =>
    rw [process_array_template.loop, dif_neg (by rw [doubledUpTo_length]; omega)]
    exact doubledUpTo_of_length_le orig i (by omega)
  | succ k ih =>
    rw [process_array_template.loop, dif_pos (by rw [doubledUpTo_length]; omega),
      process_array_template_body_doubledUpTo]
    exact ih (i + 1) (by omega)

theorem process_array_runtime_body_doubledUpTo (doCheck : Bool) (orig : List Int) (i : Nat)
    (h : i < (doubledUpTo orig i).length) :
    process_array_runtime.body (doubledUpTo orig i) doCheck i h = doubledUpTo orig (i + 1) := by
  have hi : i < orig.length := by rwa [doubledUpTo_length] at h
  have hs := set_of_mulAssign2 _ _ i h (mulAssign2_doubledUpTo orig i hi)
  unfold process_array_runtime.body
  cases doCheck <;> simp [h, hs]

theorem process_array_runtime_loop_doubledUpTo (doCheck : Bool) (orig : List Int) (k i : Nat)
    (hk : orig.length - i = k) :
    process_array_runtime.loop (doubledUpTo orig i) doCheck i = orig.map dbl := by
  induction k generalizing i with
  | zero =>
    rw [process_array_runtime.loop, dif_neg (by rw [doubledUpTo_length]; omega)]
    exact doubledUpTo_of_length_le orig i (by omega)
  | succ k ih =>
    rw [process_array_runtime.loop, dif_pos (by rw [doubledUpTo_length]; omega),
      process_array_runtime_body_doubledUpTo]
    exact ih (i + 1) (by omega)

theorem process_array_template_eq (DoCheck : Bool) (d : List Int) :
    process_array_template DoCheck d = d.map dbl := by
  have h := process_array_template_loop_doubledUpTo DoCheck d d.length 0 rfl
  rwa [doubledUpTo_zero] at h

theorem process_array_runtime_eq (doCheck : Bool) (d : List Int) :
    process_array_runtime d doCheck = d.map dbl := by
  have h := process_array_runtime_loop_doubledUpTo doCheck d d.length 0 rfl
  rwa [doubledUpTo_zero] at h

/-- C6: the inner bounds check is redundant.  For every vector `d` of 32-bit ints and every
boolean `doCheck`, `process_array_template<true>(d)`, `process_array_template<false>(d)` and
`process_array_runtime(d, doCheck)` (total functions: they terminate) leave the same vector:
it has the length of `d`, and its element at each index is `dbl` of the element of `d`, which
is twice that element modulo 2^32, in the range of `int`. -/
theorem template_and_runtime_double_every_element (d : List Int) (doCheck : Bool) :
    process_array_template true d = d.map dbl
    ∧ process_array_template false d = d.map dbl
    ∧ process_array_runtime d doCheck = d.map dbl
    ∧ (process_array_template true d).length = d.length
    ∧ (process_array_template false d).length = d.length
    ∧ (process_array_runtime d doCheck).length = d.length
    ∧ (∀ i : Nat, (process_array_runtime d doCheck)[i]? = (d[i]?).map dbl)
    ∧ (∀ v : Int, dbl v % 4294967296 = (2 * v) % 4294967296
          ∧ -2147483648 ≤ dbl v ∧ dbl v < 2147483648) := by
  refine ⟨process_array_template_eq true d, process_array_template_eq false d,
    process_array_runtime_eq doCheck d, ?_, ?_, ?_, ?_, dbl_mod⟩
  · rw [process_array_template_eq]; simp
  · rw [process_array_template_eq]; simp
  · rw [process_array_runtime_eq]; simp
  · intro i
    rw [process_array_runtime_eq]; simp

theorem ok_bind {ε α β : Type} (a : α) (f : α → Except ε β) :
    ((Except.ok a : Except ε α) >>= f) = f a := rfl

/-- The first loop of `process_array_unrolled`, for an unroll factor from 1 to 4 and with
enough fuel: it stops at some index `j`, with the elements before `j` doubled. -/
theorem process_array_unrolled_chunks_doubledUpTo (U : Nat) (h1 : 1 ≤ U) (h4 : U ≤ 4)
    (orig : List Int) (fuel i : Nat) (hi : i ≤ orig.length) (hfuel : orig.length - i < fuel) :
    ∃ j, j ≤ orig.length ∧
      process_array_unrolled.chunks U orig.length fuel (doubledUpTo orig i) i
        = .ok (doubledUpTo orig j, j) := by
  induction fuel generalizing i with
  | zero => omega
  | succ fuel ih =>
    unfold process_array_unrolled.chunks
    by_cases hc : i + U ≤ orig.length
    · rw [if_pos hc]
      obtain ⟨j, hj, hrec⟩ := ih (i + U) hc (by omega)
      refine ⟨j, hj, ?_⟩
      interval_cases U
      · have s0 := mulAssign2_doubledUpTo orig i (by omega)
        simp only [ge_iff_le, le_refl, if_true, Nat.reduceLeDiff, if_false, s0, ok_bind,
          pure_bind]
        exact hrec
      · have s0 := mulAssign2_doubledUpTo orig i (by omega)
        have s1 := mulAssign2_doubledUpTo orig (i + 1) (by omega)
        simp only [ge_iff_le, le_refl, if_true, Nat.reduceLeDiff, if_false, s0, s1, ok_bind,
          pure_bind]
        exact hrec
      · have s0 := mulAssign2_doubledUpTo orig i (by omega)
        have s1 := mulAssign2_doubledUpTo orig (i + 1) (by omega)
        have s2 := mulAssign2_doubledUpTo orig (i + 2) (by omega)
        simp only [ge_iff_le, le_refl, if_true, Nat.reduceLeDiff, if_false, s0, s1, s2,
          ok_bind, pure_bind]
        exact hrec
      · have s0 := mulAssign2_doubledUpTo orig i (by omega)
        have s1 := mulAssign2_doubledUpTo orig (i + 1) (by omega)
        have s2 := mulAssign2_doubledUpTo orig (i + 2) (by omega)
        have s3 := mulAssign2_doubledUpTo orig (i + 3) (by omega)
        simp only [ge_iff_le, le_refl, if_true, Nat.reduceLeDiff, if_false, s0, s1, s2, s3,
          ok_bind, pure_bind]
        exact hrec
    · rw [if_neg hc]
      exact ⟨i, hi, rfl⟩

/-- The second loop of `process_array_unrolled`, with enough fuel: it doubles the elements
from the index `i` on. -/
theorem process_array_unrolled_rest_doubledUpTo (orig : List Int) (fuel i : Nat)
    (hi : i ≤ orig.length) (hfuel : orig.length - i < fuel) :
    process_array_unrolled.rest orig.length fuel (doubledUpTo orig i) i = .ok (orig.map dbl) := by
  induction fuel generalizing i with
  | zero => omega
  | succ fuel ih =>
    unfold process_array_unrolled.rest
    by_cases hc : i < orig.length
    · rw [if_pos hc, mulAssign2_doubledUpTo orig i hc, ok_bind]
      exact ih (i + 1) hc (by omega)
    · rw [if_neg hc, doubledUpTo_of_length_le orig i (by omega)]
      rfl

theorem process_array_unrolled_eq (U : Nat) (h1 : 1 ≤ U) (h4 : U ≤ 4) (d : List Int)
    (fuel : Nat) (hfuel : d.length < fuel) :
    process_array_unrolled U fuel d = .ok (d.map dbl) := by
  obtain ⟨j, hj, hchunks⟩ :=
    process_array_unrolled_chunks_doubledUpTo U h1 h4 d fuel 0 (by omega) (by omega)
  rw [doubledUpTo_zero] at hchunks
  unfold process_array_unrolled
  simp only [hchunks, ok_bind]
  exact process_array_unrolled_rest_doubledUpTo d fuel j hj (by omega)

/-- C8: loop unrolling does not change the result.  For every `UnrollFactor` in {1, 2, 3, 4}
and every vector `d` of 32-bit ints of any length, `process_array_unrolled<UnrollFactor>(d)`
terminates (neither of its loops makes more than `d.size()` passes: any fuel above `d.size()`
is enough), accesses no index outside the vector (the result is not an `outOfBounds` error),
and doubles every element exactly once: it yields the vector of
`process_array_template<false>(d)`. -/
theorem unrolled_doubles_every_element (UnrollFactor : Nat) (hU : UnrollFactor ∈ [1, 2, 3, 4])
    (d : List Int) (fuel : Nat) (hfuel : d.length < fuel) :
    process_array_unrolled UnrollFactor fuel d = .ok (d.map dbl)
    ∧ process_array_unrolled UnrollFactor fuel d = .ok (process_array_template false d) := by
  have h1 : 1 ≤ UnrollFactor := by
    simp only [List.mem_cons, List.mem_singleton, List.not_mem_nil, or_false] at hU
    omega
  have h4 : UnrollFactor ≤ 4 := by
    simp only [List.mem_cons, List.mem_singleton, List.not_mem_nil, or_false] at hU
    omega
  have h := process_array_unrolled_eq UnrollFactor h1 h4 d fuel hfuel
  exact ⟨h, by rw [h, process_array_template_eq]⟩

/-- C8 at unroll factor 3 on seven elements (two chunks of three, one remaining element) and
at unroll factor 4 on three elements (no chunk at all), with wrapping values. -/
theorem unrolled_doubles_every_element_witness :
    process_array_unrolled 3 8 [1, 2, 3, 4, 5, 6, 2147483647]
        = .ok [2, 4, 6, 8, 10, 12, -2]
    ∧ process_array_unrolled 4 4 [1073741824, -5, 7] = .ok [-2147483648, -10, 14]
    ∧ process_array_template false [1073741824, -5, 7] = [-2147483648, -10, 14] := by
  have a := unrolled_doubles_every_element 3 (by decide) [1, 2, 3, 4, 5, 6, 2147483647] 8
    (by decide)
  have b := unrolled_doubles_every_element 4 (by decide) [1073741824, -5, 7] 4 (by decide)
  refine ⟨a.1.trans rfl, b.1.trans rfl, ?_⟩
  have c := b.1.symm.trans b.2
  simp only [Except.ok.injEq] at c
  rw [← c]
  rfl

/-! ## C7: `prevent_optimize` never prints -/

theorem prevent_optimize_quiet {M : Type} (s : LoopState M) (val iter : Nat)
    (hq : QuietUpTo s iter) (hval : val ≤ iter + 1) (hiter : iter < NUM_ITERATIONS) :
    QuietUpTo (prevent_optimize val s) (iter + 1) := by
  obtain ⟨hout, hlen, hcalls⟩ := hq
  have hne : val ≠ 0xDEADBEEF := by
    unfold NUM_ITERATIONS at hiter
    omega
  refine ⟨?_, ?_, ?_⟩
  · simp [prevent_optimize, hne, hout]
  · simp [prevent_optimize, hlen]
  · intro v hv
    simp only [prevent_optimize, List.mem_append, List.mem_singleton] at hv
    rcases hv with hv | hv
    · exact hcalls v hv
    · rw [hv]; exact hne

/-- One pass of the loop of `benchmark_2d_vector` stays inside the matrix, keeps its shape,
raises no cell above the number of passes made, and prints nothing. -/
theorem benchmark_2d_vector_body_inv (s : LoopState (List (List Nat))) (iter : Nat)
    (hiter : iter < NUM_ITERATIONS) (hlen : s.storage.length = WIDTH)
    (hrows : ∀ row ∈ s.storage, row.length = DEPTH ∧ ∀ v ∈ row, v ≤ iter)
    (hq : QuietUpTo s iter) :
    ∃ s', benchmark_2d_vector.body s iter = .ok s' ∧ s'.storage.length = WIDTH
      ∧ (∀ row ∈ s'.storage, row.length = DEPTH ∧ ∀ v ∈ row, v ≤ iter + 1)
      ∧ QuietUpTo s' (iter + 1) := by
  have hi : iter % WIDTH < s.storage.length := by
    rw [hlen]; exact Nat.mod_lt _ (by unfold WIDTH; omega)
  have hrow := hrows _ (List.getElem_mem hi)
  have hj : iter % DEPTH < (s.storage[iter % WIDTH]).length := by
    rw [hrow.1]; exact Nat.mod_lt _ (by unfold DEPTH; omega)
  have hv : (s.storage[iter % WIDTH])[iter % DEPTH] ≤ iter := hrow.2 _ (List.getElem_mem hj)
  have hv1 : ((s.storage[iter % WIDTH])[iter % DEPTH] + 1) % 2 ^ 32 ≤ iter + 1 :=
    le_trans (Nat.mod_le _ _) (by omega)
  refine ⟨prevent_optimize (((s.storage[iter % WIDTH])[iter % DEPTH] + 1) % 2 ^ 32)
    { s with storage := (s.storage.set (iter % WIDTH)
        ((s.storage[iter % WIDTH]).set (iter % DEPTH)
          (((s.storage[iter % WIDTH])[iter % DEPTH] + 1) % 2 ^ 32))) }, ?_, ?_, ?_, ?_⟩
  · unfold benchmark_2d_vector.body
    simp only [List.getElem?_eq_getElem hi, List.getElem?_eq_getElem hj,
      List.getElem?_set_self hi, List.getElem?_set_self hj]
  · simp [prevent_optimize, hlen]
  · intro row hmem
    simp only [prevent_optimize] at hmem
    rcases List.mem_or_eq_of_mem_set hmem with h | h
    · exact ⟨(hrows row h).1, fun v hv => le_trans ((hrows row h).2 v hv) (by omega)⟩
    · subst h
      refine ⟨by simp [hrow.1], fun v hv => ?_⟩
      rcases List.mem_or_eq_of_mem_set hv with h | h
      · exact le_trans (hrow.2 v h) (by omega)
      · rw [h]; exact hv1
  · exact prevent_optimize_quiet _ _ iter hq hv1 hiter

theorem benchmark_2d_vector_loop_inv (k : Nat) (s : LoopState (List (List Nat))) (iter : Nat)
    (hk : NUM_ITERATIONS - iter = k) (hiter : iter ≤ NUM_ITERATIONS)
    (hlen : s.storage.length = WIDTH)
    (hrows : ∀ row ∈ s.storage, row.length = DEPTH ∧ ∀ v ∈ row, v ≤ iter)
    (hq : QuietUpTo s iter) :
    ∃ s', benchmark_2d_vector.loop s iter = .ok s' ∧ QuietUpTo s' NUM_ITERATIONS := by
  induction k generalizing s iter with
  | zero =>
    have h : iter = NUM_ITERATIONS := by omega
    rw [benchmark_2d_vector.loop, if_neg (by omega)]
    exact ⟨s, rfl, h ▸ hq⟩
  | succ k ih =>
    have hlt : iter < NUM_ITERATIONS := by omega
    obtain ⟨s', hbody, hlen', hrows', hq'⟩ :=
      benchmark_2d_vector_body_inv s iter hlt hlen hrows hq
    rw [benchmark_2d_vector.loop, if_pos hlt, hbody]
    exact ih s' (iter + 1) (by omega) (by omega) hlen' hrows' hq'

/-- One pass of the loop of `benchmark_flat_vector` stays inside the vector, keeps its length,
raises no cell above the number of passes made, and prints nothing. -/
theorem benchmark_flat_vector_body_inv (s : LoopState (List Nat)) (iter : Nat)
    (hiter : iter < NUM_ITERATIONS) (hlen : s.storage.length = WIDTH * DEPTH)
    (hcells : ∀ v ∈ s.storage, v ≤ iter) (hq : QuietUpTo s iter) :
    ∃ s', benchmark_flat_vector.body s iter = .ok s' ∧ s'.storage.length = WIDTH * DEPTH
      ∧ (∀ v ∈ s'.storage, v ≤ iter + 1) ∧ QuietUpTo s' (iter + 1) := by
  have hi : iter % WIDTH * DEPTH + iter % DEPTH < s.storage.length := by
    rw [hlen]
    have h1 : iter % WIDTH < WIDTH := Nat.mod_lt _ (by unfold WIDTH; omega)
    have h2 : iter % DEPTH < DEPTH := Nat.mod_lt _ (by unfold DEPTH; omega)
    unfold WIDTH DEPTH at *
    omega
  have hv : s.storage[iter % WIDTH * DEPTH + iter % DEPTH] ≤ iter :=
    hcells _ (List.getElem_mem hi)
  have hv1 : (s.storage[iter % WIDTH * DEPTH + iter % DEPTH] + 1) % 2 ^ 32 ≤ iter + 1 :=
    le_trans (Nat.mod_le _ _) (by omega)
  refine ⟨prevent_optimize ((s.storage[iter % WIDTH * DEPTH + iter % DEPTH] + 1) % 2 ^ 32)
    { s with storage := (s.storage.set (iter % WIDTH * DEPTH + iter % DEPTH)
        ((s.storage[iter % WIDTH * DEPTH + iter % DEPTH] + 1) % 2 ^ 32)) }, ?_, ?_, ?_, ?_⟩
  · unfold benchmark_flat_vector.body
    simp only [List.getElem?_eq_getElem hi, List.getElem?_set_self hi]
  · simp [prevent_optimize, hlen]
  · intro v hmem
    simp only [prevent_optimize] at hmem
    rcases List.mem_or_eq_of_mem_set hmem with h | h
    · exact le_trans (hcells v h) (by omega)
    · rw [h]; exact hv1
  · exact prevent_optimize_quiet _ _ iter hq hv1 hiter

theorem benchmark_flat_vector_loop_inv (k : Nat) (s : LoopState (List Nat)) (iter : Nat)
    (hk : NUM_ITERATIONS - iter = k) (hiter : iter ≤ NUM_ITERATIONS)
    (hlen : s.storage.length = WIDTH * DEPTH)
    (hcells : ∀ v ∈ s.storage, v ≤ iter) (hq : QuietUpTo s iter) :
    ∃ s', benchmark_flat_vector.loop s iter = .ok s' ∧ QuietUpTo s' NUM_ITERATIONS := by
  induction k generalizing s iter with
  | zero =>
    have h : iter = NUM_ITERATIONS := by omega
    rw [benchmark_flat_vector.loop, if_neg (by omega)]
    exact ⟨s, rfl, h ▸ hq⟩
  | succ k ih =>
    have hlt : iter < NUM_ITERATIONS := by omega
    obtain ⟨s', hbody, hlen', hcells', hq'⟩ :=
      benchmark_flat_vector_body_inv s iter hlt hlen hcells hq
    rw [benchmark_flat_vector.loop, if_pos hlt, hbody]
    exact ih s' (iter + 1) (by omega) (by omega) hlen' hcells' hq'

theorem quietUpTo_init {M : Type} (m : M) :
    QuietUpTo ({ storage := m, out := [], calls := [] } : LoopState M) 0 :=
  ⟨rfl, rfl, by simp⟩

theorem matrix2d_init_rows :
    ∀ row ∈ List.replicate WIDTH (List.replicate DEPTH 0),
      row.length = DEPTH ∧ ∀ v ∈ row, v ≤ 0 := by
  intro row hrow
  rw [(List.mem_replicate.mp hrow).2]
  refine ⟨by simp, fun v hv => ?_⟩
  rw [(List.mem_replicate.mp hv).2]

theorem matrix1d_init_cells : ∀ v ∈ List.replicate (WIDTH * DEPTH) 0, v ≤ 0 := by
  intro v hv
  rw [(List.mem_replicate.mp hv).2]

/-- The whole loop of `benchmark_2d_vector`, from the zero matrix. -/
theorem benchmark_2d_vector_loop_quiet :
    ∃ s, benchmark_2d_vector.loop
        { storage := List.replicate WIDTH (List.replicate DEPTH 0), out := [], calls := [] } 0
          = .ok s ∧ QuietUpTo s NUM_ITERATIONS :=
  benchmark_2d_vector_loop_inv NUM_ITERATIONS
    { storage := List.replicate WIDTH (List.replicate DEPTH 0), out := [], calls := [] } 0
    (Nat.sub_zero _) (Nat.zero_le _) (List.length_replicate _ _) matrix2d_init_rows
    (quietUpTo_init _)

/-- The whole loop of `benchmark_flat_vector`, from the zero vector. -/
theorem benchmark_flat_vector_loop_quiet :
    ∃ s, benchmark_flat_vector.loop
        { storage := List.replicate (WIDTH * DEPTH) 0, out := [], calls := [] } 0
          = .ok s ∧ QuietUpTo s NUM_ITERATIONS :=
  benchmark_flat_vector_loop_inv NUM_ITERATIONS
    { storage := List.replicate (WIDTH * DEPTH) 0, out := [], calls := [] } 0
    (Nat.sub_zero _) (Nat.zero_le _) (List.length_replicate _ _) matrix1d_init_cells
    (quietUpTo_init _)

/-- C7: the printing branch of `prevent_optimize` is never taken.  Started from
zero-initialised storage, with `WIDTH = DEPTH = 1000` and `NUM_ITERATIONS = 10000000`, the
timed loops of `benchmark_2d_vector` and `benchmark_flat_vector` run to their end inside the
storage, call `prevent_optimize` once in each of the `NUM_ITERATIONS` iterations, always with
a value different from `0xDEADBEEF`, and write nothing to the output. -/
theorem prevent_optimize_never_prints (duration : Int) :
    (∃ r, benchmark_2d_vector duration = .ok r ∧ r.2.out = []
        ∧ r.2.calls.length = 10000000 ∧ ∀ val ∈ r.2.calls, val ≠ 0xDEADBEEF)
    ∧ (∃ r, benchmark_flat_vector duration = .ok r ∧ r.2.out = []
        ∧ r.2.calls.length = 10000000 ∧ ∀ val ∈ r.2.calls, val ≠ 0xDEADBEEF) := by
  constructor
  · obtain ⟨s, hs, hq⟩ := benchmark_2d_vector_loop_quiet
    exact ⟨(Dbl.fin duration / Dbl.fin 1000, s),
      (congrArg (Except.map (fun s => (Dbl.fin duration / Dbl.fin 1000, s))) hs).trans rfl, hq⟩
  · obtain ⟨s, hs, hq⟩ := benchmark_flat_vector_loop_quiet
    exact ⟨(Dbl.fin duration / Dbl.fin 1000, s),
      (congrArg (Except.map (fun s => (Dbl.fin duration / Dbl.fin 1000, s))) hs).trans rfl, hq⟩

end CppGoBenchmarks
